import Mathlib

/-!
# vbox-ec2-md: the configuration handler and the request router

A shallow embedding of `main.go`: the in-memory machine registry
(`machinesDB`), the handler that updates it (`configHandler`) and the route
table built by `prepareServer`.

The standard-library pieces the program calls are embedded next to it, each
under the name it has in Go: the response recorder of `net/http/httptest`,
`http.Error`, `http.StatusText`, `path.Clean`, the handler lookup of
`http.ServeMux` and the director of `httputil.NewSingleHostReverseProxy`.
Two library functions are not embedded and are arguments instead: the JSON
decoder of `encoding/json`, given to `configHandler`, and
`net.SplitHostPort`, given to the mux.
-/

namespace VboxEC2MD

/-! ## Data model -/

/-- Configuration for a machine as stored in the internal DB
(`type machineConfiguration struct`). -/
structure machineConfiguration where
  ID : String
  Hostname : String
  deriving DecidableEq, Repr

/-- The type of `machinesDB`, `map[string]machineConfiguration`: a finite map
from keys to records, without any order on the entries. -/
abbrev MachinesDB := Finmap (fun _ : String => machineConfiguration)

/-- Go function `initDB`: `machinesDB = make(map[string]machineConfiguration)`. -/
def initDB : MachinesDB := ∅

/-- Go statement `machinesDB[key] = value`. -/
def mapAssign (db : MachinesDB) (key : String) (value : machineConfiguration) : MachinesDB :=
  Finmap.insert key value db

/-- Go expression `machinesDB[key]` in its two-result form: the record stored
under `key`, if there is one. -/
def mapIndex (db : MachinesDB) (key : String) : Option machineConfiguration :=
  Finmap.lookup key db

/-! ## Errors and the JSON decoder -/

/-- A Go `error` value as `configHandler` tells them apart: the sentinel
`io.EOF`, or any other error, which carries the text of its `Error()`. -/
inductive GoError where
  | EOF
  | other (msg : String)
  deriving DecidableEq, Repr

/-- Method `Error()` of an `error`: `io.EOF` reads "EOF". -/
def GoError.Error : GoError → String
  | GoError.EOF => "EOF"
  | GoError.other msg => msg

/-- What `json.NewDecoder(r.Body).Decode(&config)` does, as a function of the
request body and of the record it decodes into: the record afterwards and the
returned error (`none` for `nil`).  The decoder belongs to `encoding/json`;
the handler is parametrised by it. -/
abbrev Decoder := String → machineConfiguration → machineConfiguration × Option GoError

/-! ## Requests and responses -/

/-- The parts of `url.URL` the program and its reverse proxy use. -/
structure URL where
  Scheme : String
  Host : String
  Path : String
  RawQuery : String
  deriving DecidableEq, Repr

/-- The parts of `http.Request` the program and its reverse proxy use.
`Header` lists the entries of the `map[string][]string`. -/
structure Request where
  Method : String
  URL : URL
  Host : String
  Header : List (String × List String)
  Body : String
  deriving DecidableEq, Repr

/-- The response writer handed to a handler, as `httptest.ResponseRecorder`
keeps it: the status code, whether the header has been written, and the body
written so far. -/
structure ResponseRecorder where
  Code : Nat
  wroteHeader : Bool
  Body : String
  deriving DecidableEq, Repr

/-- Go function `httptest.NewRecorder`: code 200, nothing written. -/
def NewRecorder : ResponseRecorder :=
  { Code := 200, wroteHeader := false, Body := "" }

/-- Method `WriteHeader`: the first call fixes the status code, later calls
are ignored. -/
def ResponseRecorder.WriteHeader (rw : ResponseRecorder) (code : Nat) : ResponseRecorder :=
  if rw.wroteHeader then rw else { rw with Code := code, wroteHeader := true }

/-- Method `Write`: writes the header with status 200 when none has been
written yet, then appends to the body. -/
def ResponseRecorder.Write (rw : ResponseRecorder) (buf : String) : ResponseRecorder :=
  let rw1 := rw.WriteHeader 200
  { rw1 with Body := rw1.Body ++ buf }

def MethodPost : String := "POST"

def StatusBadRequest : Nat := 400

/-- Go function `http.StatusText`, on the codes this program produces; it is
the empty string on an unknown code. -/
def StatusText (code : Nat) : String :=
  if code = 200 then "OK"
  else if code = 400 then "Bad Request"
  else if code = 404 then "Not Found"
  else ""

/-- Go function `http.Error`: `w.WriteHeader(code)` followed by
`fmt.Fprintln(w, error)`.  (The two content-type headers it sets are not part
of the recorder above.) -/
def Error (w : ResponseRecorder) (error : String) (code : Nat) : ResponseRecorder :=
  (w.WriteHeader code).Write (error ++ "\n")

/-! ## The configuration handler -/

/-- Go function `configHandler`: update the configuration based on the POST
request.  The global `machinesDB` is passed in and returned. -/
def configHandler (Decode : Decoder) (machinesDB : MachinesDB) (w : ResponseRecorder)
    (r : Request) : MachinesDB × ResponseRecorder :=
  if r.Method ≠ MethodPost then
    (machinesDB, Error w (StatusText StatusBadRequest) StatusBadRequest)
  else
    let decoded := Decode r.Body { ID := "", Hostname := "" }
    let config := decoded.1
    let err := decoded.2
    if err = some GoError.EOF then
      (machinesDB, Error w "Send a request body." StatusBadRequest)
    else
      match err with
      | some e => (machinesDB, Error w ("JSON Error: " ++ e.Error) 400)
      | none =>
        if config.ID = "" then
          (machinesDB, Error w "Missing machine ID." StatusBadRequest)
        else
          (mapAssign machinesDB config.ID config,
            w.Write ("Successfully updated '" ++ config.ID ++ "'.\n"))

/-- The registry after serving a sequence of requests one after the other,
each with a recorder of its own. -/
def serveAll (Decode : Decoder) (machinesDB : MachinesDB) : List Request → MachinesDB
  | [] => machinesDB
  | r :: rest => serveAll Decode (configHandler Decode machinesDB NewRecorder r).1 rest

/-- A request as the tests build it with `httptest.NewRequest`: the method,
the path and the query of the target, and the body; the host is the
"example.com" that function fills in. -/
def newRequest (method path query body : String) : Request :=
  { Method := method,
    URL := { Scheme := "", Host := "", Path := path, RawQuery := query },
    Host := "example.com",
    Header := [],
    Body := body }

/-- The results of `Decode` on the request bodies of `main_test.go`, as that
test suite observes them: no body, "bad json", an object without `id`, and
the valid payload.  It is used to run the handler on those requests; no other
body is given to it. -/
def testSuiteDecode : Decoder := fun body config =>
  if body = "" then (config, some GoError.EOF)
  else if body = "bad json" then
    (config, some (GoError.other "invalid character 'b' looking for beginning of value"))
  else if body = "\x7b\"some_key\": \"some value\"\x7d" then (config, none)
  else if body = "\x7b\"hostname\":\"target-host\",\"id\":\"some-id\"\x7d" then
    ({ ID := "some-id", Hostname := "target-host" }, none)
  else (config, some (GoError.other "body outside main_test.go"))

/-! ## The request router

`prepareServer` registers two patterns on an `http.ServeMux`.  The mux is
embedded in the form it has in Go 1.12 and 1.13: a map of entries, the
entries whose pattern ends in a slash sorted from longest to shortest, and
the flag for patterns that name a host.  `ServeMux.Handler` is the lookup
that `ServeMux.ServeHTTP` does for a request: it cleans the path, answers a
path that is not canonical with a redirect, and otherwise looks the path up.

Go strings are bytes and the strings here are characters.  The functions
below look only for the bytes of `/`, `.` and `:`, which in UTF-8 are the
characters `/`, `.` and `:` and part of no other character, so they do the
same on both. -/

/-- Go function `strings.HasPrefix`. -/
def HasPrefix (s pre : String) : Bool :=
  pre.data.isPrefixOf s.data

/-- Go function `strings.HasSuffix`. -/
def HasSuffix (s suffix : String) : Bool :=
  suffix.data.reverse.isPrefixOf s.data.reverse

/-- The loop inside the `..` case of `path.Clean`, after `out.w--` has
dropped the byte `dropped`: `for out.w > dotdot && out.index(out.w) != '/'`
drops one more byte on each turn.  The buffer `out` is kept last byte first,
so `out.w` is its length and `out.index(out.w)` is the byte dropped last. -/
def cleanBacktrack (dotdot : Nat) : Char → List Char → List Char
  | _, [] => []
  | dropped, c :: rest =>
    if (c :: rest).length > dotdot ∧ dropped ≠ '/' then cleanBacktrack dotdot c rest
    else c :: rest

/-- The loop `for r < n` of `path.Clean`: `r` is the index of the next byte
of `path` to read, `out` the buffer written so far (last byte first), and
`dotdot` the length below which `..` must not remove.  Each turn reads at
least one byte; `fuel` bounds the number of turns. -/
def cleanLoop (path : List Char) (rooted : Bool) :
    Nat → Nat → List Char → Nat → List Char
  | 0, _, out, _ => out
  | fuel + 1, r, out, dotdot =>
    if r < path.length then
      if path.get? r = some '/' then
        cleanLoop path rooted fuel (r + 1) out dotdot
      else if path.get? r = some '.' ∧
          (r + 1 = path.length ∨ path.get? (r + 1) = some '/') then
        cleanLoop path rooted fuel (r + 1) out dotdot
      else if path.get? r = some '.' ∧ path.get? (r + 1) = some '.' ∧
          (r + 2 = path.length ∨ path.get? (r + 2) = some '/') then
        if out.length > dotdot then
          match out with
          | [] => cleanLoop path rooted fuel (r + 2) out dotdot
          | c :: rest =>
            cleanLoop path rooted fuel (r + 2) (cleanBacktrack dotdot c rest) dotdot
        else if !rooted then
          let out1 := if out.length > 0 then '/' :: out else out
          let out2 := '.' :: '.' :: out1
          cleanLoop path rooted fuel (r + 2) out2 out2.length
        else
          cleanLoop path rooted fuel (r + 2) out dotdot
      else
        let out1 :=
          if (rooted = true ∧ out.length ≠ 1) ∨ (rooted = false ∧ out.length ≠ 0) then
            '/' :: out
          else out
        let element := (path.drop r).takeWhile fun c => decide (c ≠ '/')
        cleanLoop path rooted fuel (r + element.length) (element.reverse ++ out1) dotdot
    else out

/-- Go function `path.Clean`: the shortest path equivalent to `path` by
purely lexical processing.  The loop gets as many turns as the path has
bytes (see `cleanLoop_fuel`). -/
def Clean (path : String) : String :=
  if path = "" then "."
  else
    let rooted : Bool := decide (path.data.head? = some '/')
    let out :=
      if rooted then cleanLoop path.data true path.data.length 1 ['/'] 1
      else cleanLoop path.data false path.data.length 0 [] 0
    if out.length = 0 then "." else String.mk out.reverse

/-- Go function `cleanPath` of `net/http`: the canonical path for `p`,
without `.` and `..` elements and doubled slashes, and with the trailing
slash of `p` put back. -/
def cleanPath (p : String) : String :=
  if p = "" then "/"
  else
    let p1 := if p.data.head? ≠ some '/' then "/" ++ p else p
    let np := Clean p1
    if p1.data.getLast? = some '/' ∧ np ≠ "/" then
      if p1.utf8ByteSize = np.utf8ByteSize + 1 ∧ HasPrefix p1 np = true then p1
      else np ++ "/"
    else np

/-- Go function `stripHostPort` of `net/http`: `h` without a trailing port.
`SplitHostPort` stands for `net.SplitHostPort`: the host part, or `none` for
an error. -/
def stripHostPort (SplitHostPort : String → Option String) (h : String) : String :=
  if ':' ∉ h.data then h
  else
    match SplitHostPort h with
    | none => h
    | some host => host

def StatusMovedPermanently : Nat := 301

/-- The handlers a mux of this program can give: the reverse proxy made by
`httputil.NewSingleHostReverseProxy(target)`, `configHandler`, the
`http.NotFoundHandler()` the mux falls back to, and the
`http.RedirectHandler(url.String(), code)` it answers a path that is not
canonical with. -/
inductive Handler where
  | ReverseProxy (target : URL)
  | configHandler
  | NotFoundHandler
  | RedirectHandler (url : URL) (code : Nat)
  deriving DecidableEq, Repr

/-- Go type `muxEntry` of `net/http`. -/
structure muxEntry where
  h : Handler
  pattern : String
  deriving DecidableEq, Repr

/-- Go type `ServeMux` of `net/http` (without its lock): `m` lists the
entries of the map from pattern to entry. -/
structure ServeMux where
  m : List muxEntry
  es : List muxEntry
  hosts : Bool
  deriving DecidableEq, Repr

/-- Go function `http.NewServeMux`. -/
def NewServeMux : ServeMux :=
  { m := [], es := [], hosts := false }

/-- Go function `appendSorted` of `net/http`: the entry goes before the first
entry with a shorter pattern. -/
def appendSorted : List muxEntry → muxEntry → List muxEntry
  | [], e => [e]
  | x :: rest, e =>
    if x.pattern.utf8ByteSize < e.pattern.utf8ByteSize then e :: x :: rest
    else x :: appendSorted rest e

/-- Method `ServeMux.Handle`: registers the handler for the pattern.  `none`
stands for its panics (empty pattern, pattern registered twice). -/
def ServeMux.Handle (mux : ServeMux) (pattern : String) (handler : Handler) :
    Option ServeMux :=
  if pattern = "" then none
  else if (mux.m.find? fun e => decide (e.pattern = pattern)).isSome then none
  else
    let e : muxEntry := { h := handler, pattern := pattern }
    some
      { m := e :: mux.m,
        es := if pattern.data.getLast? = some '/' then appendSorted mux.es e else mux.es,
        hosts := mux.hosts || decide (pattern.data.head? ≠ some '/') }

/-- Method `ServeMux.match`: an exact match of the path first, then the
longest pattern ending in a slash that the path starts with; `none` is the
nil handler. -/
def ServeMux.muxMatch (mux : ServeMux) (path : String) : Option muxEntry :=
  match mux.m.find? fun e => decide (e.pattern = path) with
  | some v => some v
  | none => mux.es.find? fun e => HasPrefix path e.pattern

/-- Method `ServeMux.handler`: the handler and the pattern for a host and a
canonical path; the not-found handler with the empty pattern when nothing
matches. -/
def ServeMux.handler (mux : ServeMux) (host path : String) : Handler × String :=
  let byHost := if mux.hosts then mux.muxMatch (host ++ path) else none
  let found :=
    match byHost with
    | some e => some e
    | none => mux.muxMatch path
  match found with
  | some e => (e.h, e.pattern)
  | none => (Handler.NotFoundHandler, "")

/-- Whether the map `mux.m` has an entry for the pattern
(`_, exist := mux.m[pattern]`). -/
def ServeMux.exist (mux : ServeMux) (pattern : String) : Bool :=
  (mux.m.find? fun e => decide (e.pattern = pattern)).isSome

/-- Method `ServeMux.shouldRedirectRLocked`: whether the path has no handler
of its own while the path plus a slash has one. -/
def ServeMux.shouldRedirectRLocked (mux : ServeMux) (host path : String) : Bool :=
  let p := [path, host ++ path]
  if p.any fun c => mux.exist c then false
  else if path.data.length = 0 then false
  else if p.any fun c => mux.exist (c ++ "/") then decide (path.data.getLast? ≠ some '/')
  else false

/-- Method `ServeMux.redirectToPathSlash`: the URL to redirect to, with a
slash added to the path, and whether to redirect at all. -/
def ServeMux.redirectToPathSlash (mux : ServeMux) (host path : String) (u : URL) :
    URL × Bool :=
  if !mux.shouldRedirectRLocked host path then (u, false)
  else ({ Scheme := "", Host := "", Path := path ++ "/", RawQuery := u.RawQuery }, true)

/-- Method `ServeMux.Handler`: the handler to use for the request, and the
pattern it is registered under.  A CONNECT request keeps its path; for any
other the host loses its port and the path is cleaned, and a request whose
path is not the cleaned one gets a redirect to it. -/
def ServeMux.Handler (mux : ServeMux) (SplitHostPort : String → Option String)
    (r : Request) : VboxEC2MD.Handler × String :=
  if r.Method = "CONNECT" then
    let redirect := mux.redirectToPathSlash r.URL.Host r.URL.Path r.URL
    if redirect.2 then
      (VboxEC2MD.Handler.RedirectHandler redirect.1 StatusMovedPermanently, redirect.1.Path)
    else mux.handler r.Host r.URL.Path
  else
    let host := stripHostPort SplitHostPort r.Host
    let path := cleanPath r.URL.Path
    let redirect := mux.redirectToPathSlash host path r.URL
    if redirect.2 then
      (VboxEC2MD.Handler.RedirectHandler redirect.1 StatusMovedPermanently, redirect.1.Path)
    else if path ≠ r.URL.Path then
      let pattern := (mux.handler host path).2
      (VboxEC2MD.Handler.RedirectHandler { r.URL with Path := path } StatusMovedPermanently,
        pattern)
    else mux.handler host r.URL.Path

/-- Go function `singleJoiningSlash` of `net/http/httputil`. -/
def singleJoiningSlash (a b : String) : String :=
  let aslash := HasSuffix a "/"
  let bslash := HasPrefix b "/"
  if aslash && bslash then a ++ String.mk (b.data.drop 1)
  else if !aslash && !bslash then a ++ "/" ++ b
  else a ++ b

/-- The director of `httputil.NewSingleHostReverseProxy(target)`, as in the Go
releases this program was written for: how the reverse proxy rewrites the URL
of a request before it sends it to the backend, and the empty `User-Agent` it
sets when the request has none. -/
def director (target : URL) (req : Request) : Request :=
  let targetQuery := target.RawQuery
  { req with
    URL :=
      { Scheme := target.Scheme,
        Host := target.Host,
        Path := singleJoiningSlash target.Path req.URL.Path,
        RawQuery :=
          if targetQuery = "" ∨ req.URL.RawQuery = "" then targetQuery ++ req.URL.RawQuery
          else targetQuery ++ "&" ++ req.URL.RawQuery },
    Header :=
      if (req.Header.find? fun kv => decide (kv.1 = "User-Agent")).isSome then req.Header
      else ("User-Agent", [""]) :: req.Header }

/-- Go function `prepareServer`, from the point where the address of the
VirtualBox web service has been parsed into `vboxURL`: the mux with the two
routes, and the registry made by `initDB`. -/
def prepareServer (vboxURL : URL) : Option (ServeMux × MachinesDB) :=
  let mux := NewServeMux
  let rp := Handler.ReverseProxy vboxURL
  (mux.Handle "/vbox" rp).bind fun mux1 =>
    (mux1.Handle "/config" Handler.configHandler).bind fun mux2 =>
      some (mux2, initDB)

/-- The handler that `mux.Handler(r)` gives on the mux of `prepareServer`:
the handler `ServeMux.ServeHTTP` serves the request with. -/
def dispatch (SplitHostPort : String → Option String) (vboxURL : URL) (r : Request) :
    Option Handler :=
  (prepareServer vboxURL).map fun server => (server.1.Handler SplitHostPort r).1

/-- A `net.SplitHostPort` for hosts without a colon, such as the
"example.com" of `newRequest`: `stripHostPort` does not call it on them. -/
def splitNoPort : String → Option String :=
  fun _ => none

/-- The request `r` with another path and query in its URL; method, host,
headers and body stay as they are. -/
def withTarget (r : Request) (path query : String) : Request :=
  { r with URL := { r.URL with Path := path, RawQuery := query } }

/-- The address of the VirtualBox web service in the valid configuration of
`main_test.go`, `http://localhost:1245`, as `url.ParseRequestURI` splits it. -/
def testBackend : URL :=
  { Scheme := "http", Host := "localhost:1245", Path := "", RawQuery := "" }

/-- Every record of the registry sits under its own ID, and no key is empty. -/
def KeyedByID (db : MachinesDB) : Prop :=
  ∀ key value, mapIndex db key = some value → value.ID = key ∧ key ≠ ""

/-! ## Lemmas on the recorder and on the paths of `configHandler` -/

theorem Error_NewRecorder (error : String) (code : Nat) :
    Error NewRecorder error code =
      { Code := code, wroteHeader := true, Body := error ++ "\n" } := by
  simp [Error, NewRecorder, ResponseRecorder.WriteHeader, ResponseRecorder.Write]

theorem Write_NewRecorder (buf : String) :
    NewRecorder.Write buf = { Code := 200, wroteHeader := true, Body := buf } := by
  simp [NewRecorder, ResponseRecorder.WriteHeader, ResponseRecorder.Write]

theorem configHandler_of_not_post (Decode : Decoder) (db : MachinesDB) (w : ResponseRecorder)
    (r : Request) (hm : r.Method ≠ "POST") :
    configHandler Decode db w r = (db, Error w "Bad Request" 400) := by
  have hm1 : r.Method ≠ MethodPost := hm
  simp [configHandler, hm1, StatusText, StatusBadRequest]

theorem configHandler_of_eof (Decode : Decoder) (db : MachinesDB) (w : ResponseRecorder)
    (r : Request) (hm : r.Method = "POST")
    (hd : (Decode r.Body { ID := "", Hostname := "" }).2 = some GoError.EOF) :
    configHandler Decode db w r = (db, Error w "Send a request body." 400) := by
  have hm1 : r.Method = MethodPost := hm
  simp [configHandler, hm1, hd, StatusBadRequest]

theorem configHandler_of_error (Decode : Decoder) (db : MachinesDB) (w : ResponseRecorder)
    (r : Request) (e : GoError) (hm : r.Method = "POST")
    (hd : (Decode r.Body { ID := "", Hostname := "" }).2 = some e) (he : e ≠ GoError.EOF) :
    configHandler Decode db w r = (db, Error w ("JSON Error: " ++ e.Error) 400) := by
  have hm1 : r.Method = MethodPost := hm
  simp [configHandler, hm1, hd, he]

theorem configHandler_of_missing_id (Decode : Decoder) (db : MachinesDB) (w : ResponseRecorder)
    (r : Request) (hm : r.Method = "POST")
    (hd : (Decode r.Body { ID := "", Hostname := "" }).2 = none)
    (hid : (Decode r.Body { ID := "", Hostname := "" }).1.ID = "") :
    configHandler Decode db w r = (db, Error w "Missing machine ID." 400) := by
  have hm1 : r.Method = MethodPost := hm
  simp [configHandler, hm1, hd, hid, StatusBadRequest]

theorem configHandler_of_valid (Decode : Decoder) (db : MachinesDB) (w : ResponseRecorder)
    (r : Request) (hm : r.Method = "POST")
    (hd : (Decode r.Body { ID := "", Hostname := "" }).2 = none)
    (hid : (Decode r.Body { ID := "", Hostname := "" }).1.ID ≠ "") :
    configHandler Decode db w r =
      (mapAssign db (Decode r.Body { ID := "", Hostname := "" }).1.ID
          (Decode r.Body { ID := "", Hostname := "" }).1,
        w.Write ("Successfully updated '" ++
          (Decode r.Body { ID := "", Hostname := "" }).1.ID ++ "'.\n")) := by
  have hm1 : r.Method = MethodPost := hm
  simp [configHandler, hm1, hd, hid]

/-- Whatever the request, the handler either leaves the registry as it is and
answers 400, or stores one record with a non-empty ID under that ID and
answers 200. -/
theorem configHandler_cases (Decode : Decoder) (db : MachinesDB) (r : Request) :
    ((configHandler Decode db NewRecorder r).1 = db ∧
        (configHandler Decode db NewRecorder r).2.Code = 400) ∨
      ∃ config : machineConfiguration, config.ID ≠ "" ∧
        (configHandler Decode db NewRecorder r).1 = mapAssign db config.ID config ∧
        (configHandler Decode db NewRecorder r).2.Code = 200 := by
  by_cases hm : r.Method = "POST"
  · cases hd : (Decode r.Body { ID := "", Hostname := "" }).2 with
    | some e =>
      by_cases he : e = GoError.EOF
      · subst he
        left
        rw [configHandler_of_eof Decode db NewRecorder r hm hd, Error_NewRecorder]
        exact ⟨rfl, rfl⟩
      · left
        rw [configHandler_of_error Decode db NewRecorder r e hm hd he, Error_NewRecorder]
        exact ⟨rfl, rfl⟩
    | none =>
      by_cases hid : (Decode r.Body { ID := "", Hostname := "" }).1.ID = ""
      · left
        rw [configHandler_of_missing_id Decode db NewRecorder r hm hd hid, Error_NewRecorder]
        exact ⟨rfl, rfl⟩
      · right
        refine ⟨(Decode r.Body { ID := "", Hostname := "" }).1, hid, ?_⟩
        rw [configHandler_of_valid Decode db NewRecorder r hm hd hid, Write_NewRecorder]
        exact ⟨rfl, rfl⟩
  · left
    rw [configHandler_of_not_post Decode db NewRecorder r hm, Error_NewRecorder]
    exact ⟨rfl, rfl⟩

theorem KeyedByID_initDB : KeyedByID initDB := by
  intro key value h
  simp [mapIndex, initDB] at h

theorem KeyedByID_mapAssign (db : MachinesDB) (config : machineConfiguration)
    (hdb : KeyedByID db) (hid : config.ID ≠ "") :
    KeyedByID (mapAssign db config.ID config) := by
  intro key value h
  by_cases hk : key = config.ID
  · subst hk
    simp only [mapIndex, mapAssign, Finmap.lookup_insert, Option.some.injEq] at h
    subst h
    exact ⟨rfl, hid⟩
  · simp only [mapIndex, mapAssign, Finmap.lookup_insert_of_ne _ hk] at h
    exact hdb key value h

theorem KeyedByID_configHandler (Decode : Decoder) (db : MachinesDB) (r : Request)
    (hdb : KeyedByID db) : KeyedByID (configHandler Decode db NewRecorder r).1 := by
  rcases configHandler_cases Decode db r with ⟨h, _⟩ | ⟨config, hid, h, _⟩
  · rw [h]; exact hdb
  · rw [h]; exact KeyedByID_mapAssign db config hdb hid

theorem KeyedByID_serveAll (Decode : Decoder) (rs : List Request) :
    ∀ db : MachinesDB, KeyedByID db → KeyedByID (serveAll Decode db rs) := by
  induction rs with
  | nil => intro db hdb; exact hdb
  | cons r rest ih =>
    intro db hdb
    exact ih _ (KeyedByID_configHandler Decode db r hdb)

/-! ## The router of `prepareServer` -/

/-- In the loop of `path.Clean` the element copied by the default case has at
least one byte, so that case moves `r` forward as the other cases do. -/
theorem element_length_pos (path : List Char) (r : Nat) (hr : r < path.length)
    (h : path.get? r ≠ some '/') :
    0 < ((path.drop r).takeWhile fun c => decide (c ≠ '/')).length := by
  have hd : path.drop r = path[r] :: path.drop (r + 1) := List.drop_eq_getElem_cons hr
  have hc : path[r] ≠ '/' := by
    intro hc
    apply h
    rw [List.get?_eq_getElem?, List.getElem?_eq_getElem hr, hc]
  rw [hd, List.takeWhile_cons]
  simp [hc]

/-- The loop of `path.Clean` ends by itself: with as many turns as there are
bytes left to read, more turns do not change its result. -/
theorem cleanLoop_fuel (path : List Char) (rooted : Bool) :
    ∀ (f1 f2 r : Nat) (out : List Char) (dotdot : Nat),
      path.length - r ≤ f1 → path.length - r ≤ f2 →
        cleanLoop path rooted f1 r out dotdot = cleanLoop path rooted f2 r out dotdot := by
  intro f1
  induction f1 with
  | zero =>
    intro f2 r out dotdot h1 _
    have hr : ¬ r < path.length := by omega
    cases f2 with
    | zero => rfl
    | succ f2 => simp [cleanLoop, hr]
  | succ f1 ih =>
    intro f2 r out dotdot h1 h2
    cases f2 with
    | zero =>
      have hr : ¬ r < path.length := by omega
      simp [cleanLoop, hr]
    | succ f2 =>
      by_cases hr : r < path.length
      · simp only [cleanLoop, hr, if_true]
        split
        · exact ih f2 (r + 1) out dotdot (by omega) (by omega)
        · rename_i hslash
          split
          · exact ih f2 (r + 1) out dotdot (by omega) (by omega)
          · split
            · split
              · split
                · exact ih f2 (r + 2) _ dotdot (by omega) (by omega)
                · exact ih f2 (r + 2) _ dotdot (by omega) (by omega)
              · split
                · exact ih f2 (r + 2) _ _ (by omega) (by omega)
                · exact ih f2 (r + 2) out dotdot (by omega) (by omega)
            · have hpos := element_length_pos path r hr hslash
              exact ih f2 _ _ dotdot (by omega) (by omega)
      · simp [cleanLoop, hr]

theorem prepareServer_eq (vboxURL : URL) :
    prepareServer vboxURL =
      some
        ({ m := [{ h := Handler.configHandler, pattern := "/config" },
                 { h := Handler.ReverseProxy vboxURL, pattern := "/vbox" }],
           es := [],
           hosts := false },
          initDB) := by
  simp [prepareServer, ServeMux.Handle, NewServeMux]

/-- A string that ends in a slash is neither of the two registered patterns. -/
theorem append_slash_ne (c : String) : c ++ "/" ≠ "/config" ∧ c ++ "/" ≠ "/vbox" := by
  have hlast : (c ++ "/").data.getLast? = some '/' := by
    simp [String.data_append]
  constructor
  · intro h
    rw [h] at hlast
    exact absurd hlast (by decide)
  · intro h
    rw [h] at hlast
    exact absurd hlast (by decide)

/-- The mux of `prepareServer` has no pattern that ends in a slash, so it never
redirects a path to the path plus a slash. -/
theorem redirectToPathSlash_prepareServer (vboxURL : URL) (host path : String) (u : URL) :
    ServeMux.redirectToPathSlash
        { m := [{ h := Handler.configHandler, pattern := "/config" },
                { h := Handler.ReverseProxy vboxURL, pattern := "/vbox" }],
          es := [],
          hosts := false } host path u = (u, false) := by
  have h1 := append_slash_ne path
  have h2 := append_slash_ne (host ++ path)
  have h1a : ¬ "/config" = path ++ "/" := fun h => h1.1 h.symm
  have h1b : ¬ "/vbox" = path ++ "/" := fun h => h1.2 h.symm
  have h2a : ¬ "/config" = host ++ path ++ "/" := fun h => h2.1 h.symm
  have h2b : ¬ "/vbox" = host ++ path ++ "/" := fun h => h2.2 h.symm
  simp [ServeMux.redirectToPathSlash, ServeMux.shouldRedirectRLocked, ServeMux.exist,
    List.find?, h1a, h1b, h2a, h2b]

/-- The lookup `mux.handler` on the mux of `prepareServer` compares the whole
path with the two registered patterns. -/
theorem handler_prepareServer (vboxURL : URL) (host path : String) :
    (ServeMux.handler
        { m := [{ h := Handler.configHandler, pattern := "/config" },
                { h := Handler.ReverseProxy vboxURL, pattern := "/vbox" }],
          es := [],
          hosts := false } host path).1 =
      if path = "/config" then Handler.configHandler
      else if path = "/vbox" then Handler.ReverseProxy vboxURL
      else Handler.NotFoundHandler := by
  by_cases h1 : path = "/config"
  · simp [ServeMux.handler, ServeMux.muxMatch, h1]
  · by_cases h2 : path = "/vbox"
    · simp [ServeMux.handler, ServeMux.muxMatch, h2]
    · have h1s : ¬ "/config" = path := fun h => h1 h.symm
      have h2s : ¬ "/vbox" = path := fun h => h2 h.symm
      simp [ServeMux.handler, ServeMux.muxMatch, h1, h2, h1s, h2s]

/-- The mux of `prepareServer` answers a request whose path is not canonical
(CONNECT apart) with a redirect to the cleaned path, and picks the handler of
any other request by comparing the whole path with the two registered
patterns. -/
theorem dispatch_eq (SplitHostPort : String → Option String) (vboxURL : URL) (r : Request) :
    dispatch SplitHostPort vboxURL r =
      some
        (if r.Method ≠ "CONNECT" ∧ cleanPath r.URL.Path ≠ r.URL.Path then
          Handler.RedirectHandler { r.URL with Path := cleanPath r.URL.Path }
            StatusMovedPermanently
         else if r.URL.Path = "/config" then Handler.configHandler
         else if r.URL.Path = "/vbox" then Handler.ReverseProxy vboxURL
         else Handler.NotFoundHandler) := by
  rw [dispatch, prepareServer_eq]
  simp only [Option.map_some', ServeMux.Handler, redirectToPathSlash_prepareServer]
  by_cases hm : r.Method = "CONNECT"
  · simp [hm, handler_prepareServer]
  · by_cases hp : cleanPath r.URL.Path = r.URL.Path
    · simp [hm, hp, handler_prepareServer]
    · simp [hm, hp]

/-! ## The claims -/

/-- C1: a POST request whose body decodes without error to a record with a
non-empty ID is answered with status 200 and the body
"Successfully updated '<ID>'." followed by a newline, the ID copied as it is,
whatever the Hostname. -/
theorem configHandler_valid_response (Decode : Decoder) (db : MachinesDB) (r : Request)
    (config : machineConfiguration)
    (hm : r.Method = "POST")
    (hd : Decode r.Body { ID := "", Hostname := "" } = (config, none))
    (hid : config.ID ≠ "") :
    (configHandler Decode db NewRecorder r).2.Code = 200 ∧
      (configHandler Decode db NewRecorder r).2.Body =
        "Successfully updated '" ++ config.ID ++ "'.\n" := by
  have hd2 : (Decode r.Body { ID := "", Hostname := "" }).2 = none := by rw [hd]
  have hd1 : (Decode r.Body { ID := "", Hostname := "" }).1 = config := by rw [hd]
  have hid1 : (Decode r.Body { ID := "", Hostname := "" }).1.ID ≠ "" := by rw [hd1]; exact hid
  rw [configHandler_of_valid Decode db NewRecorder r hm hd2 hid1, Write_NewRecorder, hd1]
  exact ⟨rfl, rfl⟩

theorem configHandler_valid_response_witness :
    (configHandler testSuiteDecode initDB NewRecorder
        (newRequest "POST" "/config" ""
          "\x7b\"hostname\":\"target-host\",\"id\":\"some-id\"\x7d")).2.Code = 200 ∧
      (configHandler testSuiteDecode initDB NewRecorder
        (newRequest "POST" "/config" ""
          "\x7b\"hostname\":\"target-host\",\"id\":\"some-id\"\x7d")).2.Body =
        "Successfully updated '" ++ "some-id" ++ "'.\n" :=
  configHandler_valid_response testSuiteDecode initDB
    (newRequest "POST" "/config" "" "\x7b\"hostname\":\"target-host\",\"id\":\"some-id\"\x7d")
    { ID := "some-id", Hostname := "target-host" } (by decide) (by decide) (by decide)

/-- C2: after a successful update (POST, body decoding without error to a
record with a non-empty ID) the registry is the registry before with the
record assigned to its ID: the lookup of that ID gives the record, and the
lookup of every other key gives what it gave before. -/
theorem configHandler_valid_registry (Decode : Decoder) (db : MachinesDB)
    (w : ResponseRecorder) (r : Request) (config : machineConfiguration)
    (hm : r.Method = "POST")
    (hd : Decode r.Body { ID := "", Hostname := "" } = (config, none))
    (hid : config.ID ≠ "") :
    (configHandler Decode db w r).1 = mapAssign db config.ID config ∧
      mapIndex (configHandler Decode db w r).1 config.ID = some config ∧
      ∀ key, key ≠ config.ID →
        mapIndex (configHandler Decode db w r).1 key = mapIndex db key := by
  have hd2 : (Decode r.Body { ID := "", Hostname := "" }).2 = none := by rw [hd]
  have hd1 : (Decode r.Body { ID := "", Hostname := "" }).1 = config := by rw [hd]
  have hid1 : (Decode r.Body { ID := "", Hostname := "" }).1.ID ≠ "" := by rw [hd1]; exact hid
  rw [configHandler_of_valid Decode db w r hm hd2 hid1, hd1]
  refine ⟨rfl, ?_, ?_⟩
  · simp [mapIndex, mapAssign]
  · intro key hk
    simp [mapIndex, mapAssign, Finmap.lookup_insert_of_ne _ hk]

theorem configHandler_valid_registry_witness :
    mapIndex
        (configHandler testSuiteDecode
          (mapAssign initDB "some-id" { ID := "some-id", Hostname := "old-host" }) NewRecorder
          (newRequest "POST" "/config" ""
            "\x7b\"hostname\":\"target-host\",\"id\":\"some-id\"\x7d")).1 "some-id" =
      some { ID := "some-id", Hostname := "target-host" } :=
  (configHandler_valid_registry testSuiteDecode
    (mapAssign initDB "some-id" { ID := "some-id", Hostname := "old-host" }) NewRecorder
    (newRequest "POST" "/config" "" "\x7b\"hostname\":\"target-host\",\"id\":\"some-id\"\x7d")
    { ID := "some-id", Hostname := "target-host" } (by decide) (by decide) (by decide)).2.1

/-- C3: when the handler answers with a status other than 200, the registry
after the call is the registry before the call. -/
theorem configHandler_failure_registry (Decode : Decoder) (db : MachinesDB) (r : Request)
    (hcode : (configHandler Decode db NewRecorder r).2.Code ≠ 200) :
    (configHandler Decode db NewRecorder r).1 = db := by
  rcases configHandler_cases Decode db r with ⟨h, _⟩ | ⟨_, _, _, h200⟩
  · exact h
  · exact absurd h200 hcode

theorem configHandler_failure_registry_witness :
    (configHandler testSuiteDecode
        (mapAssign initDB "some-id" { ID := "some-id", Hostname := "old-host" }) NewRecorder
        (newRequest "POST" "/config" "" "bad json")).1 =
      mapAssign initDB "some-id" { ID := "some-id", Hostname := "old-host" } :=
  configHandler_failure_registry testSuiteDecode
    (mapAssign initDB "some-id" { ID := "some-id", Hostname := "old-host" })
    (newRequest "POST" "/config" "" "bad json") (by decide)

/-- C4: a request whose method is not POST is answered with status 400 and
the body "Bad Request" followed by a newline, whatever its body and whatever
the decoder would make of it. -/
theorem configHandler_not_post (Decode : Decoder) (db : MachinesDB) (r : Request)
    (hm : r.Method ≠ "POST") :
    (configHandler Decode db NewRecorder r).2.Code = 400 ∧
      (configHandler Decode db NewRecorder r).2.Body = "Bad Request\n" := by
  rw [configHandler_of_not_post Decode db NewRecorder r hm, Error_NewRecorder]
  exact ⟨rfl, rfl⟩

theorem configHandler_not_post_witness :
    (configHandler testSuiteDecode initDB NewRecorder
        (newRequest "GET" "/config" ""
          "\x7b\"hostname\":\"target-host\",\"id\":\"some-id\"\x7d")).2.Code = 400 ∧
      (configHandler testSuiteDecode initDB NewRecorder
        (newRequest "GET" "/config" ""
          "\x7b\"hostname\":\"target-host\",\"id\":\"some-id\"\x7d")).2.Body =
        "Bad Request\n" :=
  configHandler_not_post testSuiteDecode initDB
    (newRequest "GET" "/config" "" "\x7b\"hostname\":\"target-host\",\"id\":\"some-id\"\x7d")
    (by decide)

/-- C5: a POST request on whose body the decoder returns `io.EOF` (an empty
body) is answered with status 400 and the body "Send a request body."
followed by a newline. -/
theorem configHandler_no_body (Decode : Decoder) (db : MachinesDB) (r : Request)
    (hm : r.Method = "POST")
    (hd : (Decode r.Body { ID := "", Hostname := "" }).2 = some GoError.EOF) :
    (configHandler Decode db NewRecorder r).2.Code = 400 ∧
      (configHandler Decode db NewRecorder r).2.Body = "Send a request body.\n" := by
  rw [configHandler_of_eof Decode db NewRecorder r hm hd, Error_NewRecorder]
  exact ⟨rfl, rfl⟩

theorem configHandler_no_body_witness :
    (configHandler testSuiteDecode initDB NewRecorder
        (newRequest "POST" "/config" "" "")).2.Code = 400 ∧
      (configHandler testSuiteDecode initDB NewRecorder
        (newRequest "POST" "/config" "" "")).2.Body = "Send a request body.\n" :=
  configHandler_no_body testSuiteDecode initDB (newRequest "POST" "/config" "" "")
    (by decide) (by decide)

/-- C6: a POST request whose body decodes without error to a record with an
empty ID is answered with status 400 and the body "Missing machine ID."
followed by a newline, whatever the Hostname. -/
theorem configHandler_missing_id (Decode : Decoder) (db : MachinesDB) (r : Request)
    (hm : r.Method = "POST")
    (hd : (Decode r.Body { ID := "", Hostname := "" }).2 = none)
    (hid : (Decode r.Body { ID := "", Hostname := "" }).1.ID = "") :
    (configHandler Decode db NewRecorder r).2.Code = 400 ∧
      (configHandler Decode db NewRecorder r).2.Body = "Missing machine ID.\n" := by
  rw [configHandler_of_missing_id Decode db NewRecorder r hm hd hid, Error_NewRecorder]
  exact ⟨rfl, rfl⟩

theorem configHandler_missing_id_witness :
    (configHandler testSuiteDecode initDB NewRecorder
        (newRequest "POST" "/config" ""
          "\x7b\"some_key\": \"some value\"\x7d")).2.Code = 400 ∧
      (configHandler testSuiteDecode initDB NewRecorder
        (newRequest "POST" "/config" ""
          "\x7b\"some_key\": \"some value\"\x7d")).2.Body = "Missing machine ID.\n" :=
  configHandler_missing_id testSuiteDecode initDB
    (newRequest "POST" "/config" "" "\x7b\"some_key\": \"some value\"\x7d")
    (by decide) (by decide) (by decide)

/-- C7: a POST request on whose body the decoder fails with an error other
than `io.EOF` is answered with status 400 and the body "JSON Error: ", the
message of the error, and a newline; so the body starts with "JSON Error: ". -/
theorem configHandler_json_error (Decode : Decoder) (db : MachinesDB) (r : Request)
    (e : GoError)
    (hm : r.Method = "POST")
    (hd : (Decode r.Body { ID := "", Hostname := "" }).2 = some e)
    (he : e ≠ GoError.EOF) :
    (configHandler Decode db NewRecorder r).2.Code = 400 ∧
      (configHandler Decode db NewRecorder r).2.Body = "JSON Error: " ++ e.Error ++ "\n" ∧
      HasPrefix (configHandler Decode db NewRecorder r).2.Body "JSON Error: " = true := by
  rw [configHandler_of_error Decode db NewRecorder r e hm hd he, Error_NewRecorder]
  refine ⟨rfl, rfl, ?_⟩
  simp only [HasPrefix, List.isPrefixOf_iff_prefix, String.data_append, List.append_assoc]
  exact List.prefix_append _ _

theorem configHandler_json_error_witness :
    (configHandler testSuiteDecode initDB NewRecorder
        (newRequest "POST" "/config" "" "bad json")).2.Body =
      "JSON Error: invalid character 'b' looking for beginning of value\n" :=
  (configHandler_json_error testSuiteDecode initDB
    (newRequest "POST" "/config" "" "bad json")
    (GoError.other "invalid character 'b' looking for beginning of value")
    (by decide) (by decide) (by decide)).2.1

/-- C8, as the code has it: the request for /vbox/anything?query=1 is not
given to the reverse proxy.  The mux of `prepareServer` answers it with the
not-found handler, and the director of the proxy would not turn its path into
/anything either; to a request without headers, as this one, the director
adds a header. -/
theorem vbox_subpath_not_forwarded :
    dispatch splitNoPort testBackend (newRequest "GET" "/vbox/anything" "query=1" "") =
        some Handler.NotFoundHandler ∧
      dispatch splitNoPort testBackend (newRequest "GET" "/vbox/anything" "query=1" "") ≠
        some (Handler.ReverseProxy testBackend) ∧
      (director testBackend (newRequest "GET" "/vbox/anything" "query=1" "")).URL.Path ≠
        "/anything" ∧
      (director testBackend (newRequest "GET" "/vbox/anything" "query=1" "")).Header ≠
        (newRequest "GET" "/vbox/anything" "query=1" "").Header := by
  decide

/-- C8, amended: the mux of `prepareServer` gives a request to the reverse
proxy exactly when its path is /vbox.  The request for /vbox/anything?query=1
gets the not-found handler.  The request for /vbox?query=1 gets the proxy,
whose director sets the scheme and host of the backend, joins the path of the
backend and /vbox (nothing removes /vbox), puts query=1 after the query of
the backend, and keeps method, host, body and every header, adding only an
empty User-Agent header when the request has none. -/
theorem router_vbox_exact (SplitHostPort : String → Option String) (B : URL) (r : Request) :
    (dispatch SplitHostPort B r = some (Handler.ReverseProxy B) ↔ r.URL.Path = "/vbox") ∧
      dispatch SplitHostPort B (withTarget r "/vbox/anything" "query=1") =
        some Handler.NotFoundHandler ∧
      dispatch SplitHostPort B (withTarget r "/vbox" "query=1") =
        some (Handler.ReverseProxy B) ∧
      (director B (withTarget r "/vbox" "query=1")).URL =
        { Scheme := B.Scheme,
          Host := B.Host,
          Path := if HasSuffix B.Path "/" = true then B.Path ++ "vbox" else B.Path ++ "/vbox",
          RawQuery := if B.RawQuery = "" then "query=1" else B.RawQuery ++ "&" ++ "query=1" } ∧
      (director B (withTarget r "/vbox" "query=1")).Method = r.Method ∧
      (director B (withTarget r "/vbox" "query=1")).Host = r.Host ∧
      (director B (withTarget r "/vbox" "query=1")).Body = r.Body ∧
      (director B (withTarget r "/vbox" "query=1")).Header =
        (if (r.Header.find? fun kv => decide (kv.1 = "User-Agent")).isSome = true then r.Header
         else ("User-Agent", [""]) :: r.Header) ∧
      ∀ kv ∈ r.Header, kv ∈ (director B (withTarget r "/vbox" "query=1")).Header := by
  have hc1 : cleanPath "/vbox" = "/vbox" := by decide
  have hc2 : cleanPath "/vbox/anything" = "/vbox/anything" := by decide
  refine ⟨?_, ?_, ?_, ?_, rfl, rfl, rfl, rfl, ?_⟩
  · rw [dispatch_eq]
    by_cases hred : r.Method ≠ "CONNECT" ∧ cleanPath r.URL.Path ≠ r.URL.Path
    · have hne : r.URL.Path ≠ "/vbox" := by
        intro h
        apply hred.2
        rw [h, hc1]
      simp [hred, hne]
    · rw [if_neg hred]
      by_cases h1 : r.URL.Path = "/config"
      · have h2 : r.URL.Path ≠ "/vbox" := by rw [h1]; decide
        simp [h1, h2]
      · by_cases h2 : r.URL.Path = "/vbox"
        · simp [h2]
        · simp [h1, h2]
  · rw [dispatch_eq]
    simp [withTarget, hc2]
  · rw [dispatch_eq]
    simp [withTarget, hc1]
  · have hb : HasPrefix "/vbox" "/" = true := by decide
    by_cases hs : HasSuffix B.Path "/" = true
    · by_cases hq : B.RawQuery = ""
      · simp [director, withTarget, singleJoiningSlash, hb, hs, hq]
      · simp [director, withTarget, singleJoiningSlash, hb, hs, hq]
    · by_cases hq : B.RawQuery = ""
      · simp [director, withTarget, singleJoiningSlash, hb, hs, hq]
      · simp [director, withTarget, singleJoiningSlash, hb, hs, hq]
  · intro kv hkv
    simp only [director, withTarget]
    split
    · exact hkv
    · exact List.mem_cons_of_mem _ hkv

theorem router_vbox_exact_witness :
    dispatch splitNoPort testBackend
        { Method := "POST",
          URL := { Scheme := "", Host := "", Path := "/vbox", RawQuery := "query=1" },
          Host := "example.com",
          Header := [("Content-Type", ["text/xml"])],
          Body := "<soap/>" } =
      some (Handler.ReverseProxy testBackend) ∧
      (director testBackend
        { Method := "POST",
          URL := { Scheme := "", Host := "", Path := "/vbox", RawQuery := "query=1" },
          Host := "example.com",
          Header := [("Content-Type", ["text/xml"])],
          Body := "<soap/>" }).Header =
        [("User-Agent", [""]), ("Content-Type", ["text/xml"])] :=
  ⟨(router_vbox_exact splitNoPort testBackend
      { Method := "POST",
        URL := { Scheme := "", Host := "", Path := "/vbox", RawQuery := "query=1" },
        Host := "example.com",
        Header := [("Content-Type", ["text/xml"])],
        Body := "<soap/>" }).2.2.1,
    (router_vbox_exact splitNoPort testBackend
      { Method := "POST",
        URL := { Scheme := "", Host := "", Path := "/vbox", RawQuery := "query=1" },
        Host := "example.com",
        Header := [("Content-Type", ["text/xml"])],
        Body := "<soap/>" }).2.2.2.2.2.2.2.1⟩

/-- C9: in every registry reached from the registry of `initDB` by serving a
finite sequence of requests with `configHandler`, every record sits under a
key equal to its own ID, and no key is the empty string. -/
theorem serveAll_keyed_by_id (Decode : Decoder) (rs : List Request) (key : String)
    (value : machineConfiguration)
    (h : mapIndex (serveAll Decode initDB rs) key = some value) :
    value.ID = key ∧ key ≠ "" :=
  KeyedByID_serveAll Decode rs initDB KeyedByID_initDB key value h

theorem serveAll_keyed_by_id_witness :
    mapIndex
        (serveAll testSuiteDecode initDB
          [newRequest "POST" "/config" "" "\x7b\"some_key\": \"some value\"\x7d",
            newRequest "POST" "/config" ""
              "\x7b\"hostname\":\"target-host\",\"id\":\"some-id\"\x7d",
            newRequest "GET" "/config" "" "",
            newRequest "POST" "/config" "" "bad json"])
        "some-id" = some { ID := "some-id", Hostname := "target-host" } ∧
      ({ ID := "some-id", Hostname := "target-host" } : machineConfiguration).ID = "some-id" ∧
      "some-id" ≠ "" :=
  ⟨by decide,
    serveAll_keyed_by_id testSuiteDecode
      [newRequest "POST" "/config" "" "\x7b\"some_key\": \"some value\"\x7d",
        newRequest "POST" "/config" "" "\x7b\"hostname\":\"target-host\",\"id\":\"some-id\"\x7d",
        newRequest "GET" "/config" "" "",
        newRequest "POST" "/config" "" "bad json"]
      "some-id" { ID := "some-id", Hostname := "target-host" } (by decide)⟩

end VboxEC2MD
